import Mathlib

/-!
Shallow embedding of the URL uptime monitor (Soumik1234554321/Auto).

The repository has two variants:
  * `src/app.py` — Flask app with a persisted registry (`urls.json`,
    read/written through `load_urls`/`save_urls`), a global dict
    `active_monitors` of live monitors, and background `ping_worker`
    threads that probe at a configured interval with a 0.1-second sliced
    interruptible wait.
  * `src/API/index.py` — a variant with no background monitoring threads:
    it stores richer target records, clamps the interval to [1, 60],
    performs no duplicate-URL check, and probes via `check_url_status`.

Python dicts are embedded as association lists `List (String × β)` with
first-match lookup; dict assignment replaces the first matching key or
appends, and `del` removes the key.  Machine state (registry + active
monitors) is an explicit `AppState` record; each Flask handler becomes a
pure state-transformer returning the new state and an outcome mirroring
the handler's HTTP response.  Real time in `ping_worker` is discretised
into 0.1-second slices, the granularity at which the source polls its
cancellation condition.
-/

set_option autoImplicit false
set_option maxHeartbeats 1000000

universe u

/-- First-match lookup in an association list, embedding `key in dict` /
`dict[key]` on a Python dict. -/
def lookupKey {β : Type u} : List (String × β) → String → Option β
  | [], _ => none
  | p :: rest, k => if p.1 = k then some p.2 else lookupKey rest k

/-- Dict assignment `d[k] = v`: replace the first pair with key `k`, or
append a new pair when the key is absent. -/
def insertKey {β : Type u} : List (String × β) → String → β → List (String × β)
  | [], k, v => [(k, v)]
  | p :: rest, k, v => if p.1 = k then (k, v) :: rest else p :: insertKey rest k v

/-- Dict deletion `del d[k]`: drop every pair with key `k` (on the
unique-key lists produced by Python dicts this removes the one entry). -/
def removeKey {β : Type u} : List (String × β) → String → List (String × β)
  | [], _ => []
  | p :: rest, k => if p.1 = k then removeKey rest k else p :: removeKey rest k

/-- Keys of the association list are pairwise distinct, as they are for a
list that images a Python dict. -/
abbrev keysNodup {β : Type u} (l : List (String × β)) : Prop :=
  (l.map Prod.fst).Nodup

/-- One persisted target record, the shape produced by `load_urls` /
`save_urls` in `src/app.py`: exactly the fields `id`, `url`, `interval`
(minutes) and `monitoring`. -/
structure Target where
  id : String
  url : String
  interval : Int
  monitoring : Bool
deriving DecidableEq, Repr

/-- One value of the `active_monitors` dict in `src/app.py`
(`start_monitoring_thread` stores `active`, `url` and `interval`). -/
structure MonitorEntry where
  active : Bool
  url : String
  interval : Int
deriving DecidableEq, Repr

/-- Combined mutable state of `src/app.py`: the persisted registry
(`urls.json`, as the cleaned mapping `load_urls` returns) and the global
`active_monitors` dict of live schedule entries. -/
structure AppState where
  registry : List (String × Target)
  active : List (String × MonitorEntry)
deriving DecidableEq, Repr

/-- Outcome of the `start_monitoring` handler in `src/app.py`, mirroring
its HTTP responses: 404 URL not found, 400 monitoring already active,
or 200 monitoring started. -/
inductive StartResult where
  | notFound
  | alreadyActive
  | started
deriving DecidableEq, Repr

/-- Outcome of the `add_url` handlers: 400 empty URL, 400 invalid URL,
400 duplicate URL (with the existing id, `src/app.py` only), or 201
added (with the new id). -/
inductive AddResult where
  | noUrl
  | invalidUrl
  | duplicate (existingId : String)
  | added (newId : String)
deriving DecidableEq, Repr

/-- Embedding of `start_monitoring_thread` in `src/app.py`: returns
`false` when the id is already in `active_monitors`, otherwise records
the entry (with the target's current url and interval) and returns
`true`.  Spawning the worker thread itself is modelled separately by
`ping_worker`. -/
def start_monitoring_thread (active : List (String × MonitorEntry))
    (url_id : String) (url_info : Target) :
    List (String × MonitorEntry) × Bool :=
  if (lookupKey active url_id).isSome then (active, false)
  else (insertKey active url_id ⟨true, url_info.url, url_info.interval⟩, true)

/-- Embedding of the in-place update `urls_data[url_id][..monitoring..] = b`
performed by the `start_monitoring` / `stop_monitoring` handlers; a no-op
when the id is absent (the handlers only reach it after a membership
check). -/
def setMonitoring (reg : List (String × Target)) (url_id : String)
    (b : Bool) : List (String × Target) :=
  match lookupKey reg url_id with
  | some t => insertKey reg url_id { t with monitoring := b }
  | none => reg

/-- Embedding of the `start_monitoring` handler in `src/app.py`: 404 when
the id is not in the registry; otherwise `start_monitoring_thread`, and on
success the target's `monitoring` flag is set to true and saved. -/
def start_monitoring (s : AppState) (url_id : String) :
    AppState × StartResult :=
  match lookupKey s.registry url_id with
  | none => (s, StartResult.notFound)
  | some t =>
    let r := start_monitoring_thread s.active url_id t
    if r.2 then
      ({ registry := setMonitoring s.registry url_id true, active := r.1 },
        StartResult.started)
    else (s, StartResult.alreadyActive)

/-- Embedding of the `stop_monitoring` handler in `src/app.py`: delete
the id from `active_monitors` when present, then set `monitoring` to
false in the registry when the id is present there; always answers 200,
so no result value is modelled. -/
def stop_monitoring (s : AppState) (url_id : String) : AppState :=
  { registry :=
      if (lookupKey s.registry url_id).isSome then
        setMonitoring s.registry url_id false
      else s.registry,
    active := removeKey s.active url_id }

/-- Embedding of the `delete_url` handler in `src/app.py`: first delete
the id from `active_monitors` when present, then delete the target from
the registry when present (`true`, 200) or answer 404 (`false`). -/
def delete_url (s : AppState) (url_id : String) : AppState × Bool :=
  let active1 := removeKey s.active url_id
  if (lookupKey s.registry url_id).isSome then
    ({ registry := removeKey s.registry url_id, active := active1 }, true)
  else ({ registry := s.registry, active := active1 }, false)

/-- Interval normalisation in the `add_url` handler of `src/app.py`:
`int(interval)` clamped to `[1, 1440]`, and `5` when the conversion
raises (`none` stands for a request value `int` rejects). -/
def clampIntervalApp : Option Int → Int
  | none => 5
  | some i => if i < 1 then 1 else if i > 1440 then 1440 else i

/-- Duplicate scan in the `add_url` handler of `src/app.py`: the id of
the first registry entry whose stored `url` equals the requested one. -/
def findByUrl : List (String × Target) → String → Option String
  | [], _ => none
  | p :: rest, u => if p.2.url = u then some p.1 else findByUrl rest u

/-- Embedding of the `add_url` handler in `src/app.py`.  The external
inputs are the requested url (already stripped), the verdict of
`is_valid_url`, the requested interval, and the generated id
(`url_<time>_<len>` in the source).  Rejects an empty or invalid url,
clamps the interval, rejects a duplicate url, and otherwise stores a new
target with `monitoring = False`. -/
def add_url (s : AppState) (newId url : String) (urlValid : Bool)
    (interval : Option Int) : AppState × AddResult :=
  if url = "" then (s, AddResult.noUrl)
  else if urlValid = false then (s, AddResult.invalidUrl)
  else
    match findByUrl s.registry url with
    | some existingId => (s, AddResult.duplicate existingId)
    | none =>
      ({ registry :=
          insertKey s.registry newId
            ⟨newId, url, clampIntervalApp interval, false⟩,
         active := s.active }, AddResult.added newId)

/-- The registry/scheduler consistency invariant: every target in the
persisted registry has `monitoring = true` exactly when a live entry for
its id is in `active_monitors`. -/
def monitoringInvariant (s : AppState) : Bool :=
  s.registry.all fun p => p.2.monitoring == (lookupKey s.active p.1).isSome

/-!
Time model for the background worker of `src/app.py`.  Time is counted
in slices of 0.1 second, the granularity of `time.sleep(0.1)` in the
worker's wait loop.  `cancelled t` is the value the worker observes for
its exit condition `stop_event.is_set() or url_id not in active_monitors`
at slice `t`; once a stop or delete for the id has returned, that
condition is true at every later slice.
-/

/-- Embedding of the wait loop of `ping_worker`:
`for _ in range(interval * 60 * 10): if <cancelled>: break; sleep(0.1)`.
Given the slice at which the wait starts and the remaining iteration
count, returns the slice at which the wait ends. -/
def waitInterval (cancelled : Nat → Bool) : Nat → Nat → Nat
  | t, 0 => t
  | t, k + 1 => if cancelled t then t else waitInterval cancelled (t + 1) k

/-- Embedding of the `ping_worker` loop of `src/app.py`: while the
cancellation condition is unobserved, issue one probe (taking `dur t`
slices for the probe started at slice `t`), then run the sliced wait for
`interval * 60 * 10` iterations, and repeat.  Returns the start slices
of the probes performed; `fuel` bounds the number of loop iterations so
the embedding is total. -/
def ping_worker (cancelled : Nat → Bool) (dur : Nat → Nat)
    (interval : Nat) : Nat → Nat → List Nat
  | _, 0 => []
  | t, fuel + 1 =>
    if cancelled t then []
    else
      t :: ping_worker cancelled dur interval
        (waitInterval cancelled (t + dur t) (interval * 60 * 10)) fuel

namespace API

/-- Result record built by `check_url_status` in `src/API/index.py`:
fields `status`, `status_code`, `response_time` (milliseconds),
an `error` text present only in the exception branch, and `timestamp`. -/
structure CheckResult where
  status : String
  status_code : Nat
  response_time : Nat
  error : Option String
  timestamp : Nat
deriving DecidableEq, Repr

/-- What happened at the network layer during one probe: either a
response arrived (with its HTTP status code and the elapsed time the
code measures), or an exception was raised — a timeout or any other
transport failure — after some real elapsed time.  The elapsed time of
the failure case is carried so that theorems can compare it with what
the code records. -/
inductive ProbeEvent where
  | response (statusCode : Nat) (elapsedMs : Nat)
  | failure (detail : String) (elapsedMs : Nat)
deriving DecidableEq, Repr

/-- Embedding of `check_url_status` in `src/API/index.py`: a response
with status code below 400 is reported `up`, at or above 400 `down`,
both carrying the code and the measured elapsed time; every exception —
timeouts included — is reported `down` with `status_code = 0`,
`response_time = 0` and the exception text. -/
def check_url_status (ev : ProbeEvent) (now : Nat) : CheckResult :=
  match ev with
  | ProbeEvent.response code elapsed =>
    { status := if code < 400 then "up" else "down"
      status_code := code
      response_time := elapsed
      error := none
      timestamp := now }
  | ProbeEvent.failure detail _ =>
    { status := "down"
      status_code := 0
      response_time := 0
      error := some detail
      timestamp := now }

/-- One stored target record of `src/API/index.py`: `id`, `name`, `url`,
`interval`, `monitoring`, the `last_check` result and `created_at`. -/
structure APITarget where
  id : String
  name : String
  url : String
  interval : Int
  monitoring : Bool
  last_check : CheckResult
  created_at : Nat
deriving DecidableEq, Repr

/-- Interval normalisation in the `add_url` handler of
`src/API/index.py`: `if interval < 1: interval = 1` then
`if interval > 60: interval = 60`. -/
def clampInterval (i : Int) : Int :=
  let i1 := if i < 1 then 1 else i
  if i1 > 60 then 60 else i1

/-- Embedding of the `add_url` handler in `src/API/index.py`: rejects an
empty or invalid url, clamps the interval to `[1, 60]`, performs an
initial `check_url_status` probe (its network event and clock reading
are inputs), and stores a new target with `monitoring = False` under a
fresh uuid — with no duplicate-url check. -/
def add_url (reg : List (String × APITarget)) (newId url name : String)
    (urlValid : Bool) (interval : Int) (ev : ProbeEvent) (now : Nat) :
    List (String × APITarget) × AddResult :=
  if url = "" then (reg, AddResult.noUrl)
  else if urlValid = false then (reg, AddResult.invalidUrl)
  else
    (insertKey reg newId
      ⟨newId, name, url, clampInterval interval, false,
        check_url_status ev now, now⟩, AddResult.added newId)

/-- Embedding of the `delete_url` handler in `src/API/index.py`: delete
the target from the registry when present (`true`, 200) or answer 404
(`false`); this variant has no live monitors to stop. -/
def delete_url (reg : List (String × APITarget)) (url_id : String) :
    List (String × APITarget) × Bool :=
  if (lookupKey reg url_id).isSome then (removeKey reg url_id, true)
  else (reg, false)

/-- Number of registry entries storing a given url. -/
def countByUrl (reg : List (String × APITarget)) (u : String) : Nat :=
  (reg.filter fun p => p.2.url = u).length

end API

/-- JSON values, as `json.load` produces them, for the raw contents of
`urls.json`. -/
inductive JValue where
  | str (s : String)
  | num (n : Int)
  | bool (b : Bool)
  | null
  | arr (items : List JValue)
  | obj (fields : List (String × JValue))

/-- What reading `urls.json` in `load_urls` of `src/app.py` can yield:
the file is missing, reading or parsing raised an exception, or a parsed
JSON value. -/
inductive LoadInput where
  | missing
  | readError
  | parsed (v : JValue)

/-- One cleaned entry as `load_urls` of `src/app.py` builds it: exactly
the four fields `id`, `url`, `interval` and `monitoring`, holding the
raw JSON values found in the file (or the defaults). -/
structure RawTarget where
  id : JValue
  url : JValue
  interval : JValue
  monitoring : JValue

/-- Embedding of Python `fields.get(k, dflt)` on a parsed JSON object. -/
def jGet (fields : List (String × JValue)) (k : String) (dflt : JValue) :
    JValue :=
  match lookupKey fields k with
  | some v => v
  | none => dflt

/-- The per-entry cleanup of `load_urls` in `src/app.py`: a value that
is a JSON object becomes the four-field record with `id` set to the key,
`url` defaulting to `""`, `interval` defaulting to `5` and `monitoring`
defaulting to `False`; any other value is dropped. -/
def cleanEntry (url_id : String) : JValue → Option (String × RawTarget)
  | JValue.obj fields =>
    some (url_id,
      ⟨JValue.str url_id,
        jGet fields "url" (JValue.str ""),
        jGet fields "interval" (JValue.num 5),
        jGet fields "monitoring" (JValue.bool false)⟩)
  | _ => none

/-- Embedding of `load_urls` in `src/app.py`: an absent file or any
read/parse exception yields the empty mapping; a parsed JSON object is
cleaned entry by entry (iterating a non-object raises, so any other
JSON value also ends in the exception handler and the empty mapping). -/
def load_urls : LoadInput → List (String × RawTarget)
  | LoadInput.missing => []
  | LoadInput.readError => []
  | LoadInput.parsed (JValue.obj entries) =>
    entries.filterMap fun p => cleanEntry p.1 p.2
  | LoadInput.parsed _ => []

section AssocLemmas

variable {β : Type u}

theorem lookupKey_insertKey_self (l : List (String × β)) (k : String) (v : β) :
    lookupKey (insertKey l k v) k = some v := by
  induction l with
  | nil => simp [insertKey, lookupKey]
  | cons p rest ih =>
    by_cases h : p.1 = k
    · simp [insertKey, h, lookupKey]
    · simp [insertKey, h, lookupKey, ih]

theorem lookupKey_insertKey_ne (l : List (String × β)) (k k2 : String) (v : β)
    (h : k2 ≠ k) : lookupKey (insertKey l k v) k2 = lookupKey l k2 := by
  induction l with
  | nil => simp [insertKey, lookupKey, Ne.symm h]
  | cons p rest ih =>
    by_cases hp : p.1 = k
    · subst hp
      simp [insertKey, lookupKey, Ne.symm h]
    · simp only [insertKey, hp, if_false]
      by_cases hq : p.1 = k2
      · simp [lookupKey, hq]
      · simp [lookupKey, hq, ih]

theorem lookupKey_removeKey_self (l : List (String × β)) (k : String) :
    lookupKey (removeKey l k) k = none := by
  induction l with
  | nil => simp [removeKey, lookupKey]
  | cons p rest ih =>
    by_cases h : p.1 = k
    · simp [removeKey, h, ih]
    · simp [removeKey, h, lookupKey, ih]

theorem lookupKey_removeKey_ne (l : List (String × β)) (k k2 : String)
    (h : k2 ≠ k) : lookupKey (removeKey l k) k2 = lookupKey l k2 := by
  induction l with
  | nil => simp [removeKey]
  | cons p rest ih =>
    by_cases hp : p.1 = k
    · subst hp
      simp [removeKey, lookupKey, Ne.symm h, ih]
    · by_cases hq : p.1 = k2
      · simp [removeKey, hp, lookupKey, hq, h]
      · simp [removeKey, hp, lookupKey, hq, ih]

theorem removeKey_removeKey_self (l : List (String × β)) (k : String) :
    removeKey (removeKey l k) k = removeKey l k := by
  induction l with
  | nil => simp [removeKey]
  | cons p rest ih =>
    by_cases h : p.1 = k
    · simp [removeKey, h, ih]
    · simp [removeKey, h, ih]

theorem insertKey_insertKey_self (l : List (String × β)) (k : String) (v w : β) :
    insertKey (insertKey l k v) k w = insertKey l k w := by
  induction l with
  | nil => simp [insertKey]
  | cons p rest ih =>
    by_cases h : p.1 = k
    · simp [insertKey, h]
    · simp [insertKey, h, ih]

theorem mem_removeKey (l : List (String × β)) (k : String) (p : String × β)
    (hp : p ∈ removeKey l k) : p ∈ l ∧ p.1 ≠ k := by
  induction l with
  | nil => simp [removeKey] at hp
  | cons q rest ih =>
    by_cases h : q.1 = k
    · rw [removeKey, if_pos h] at hp
      rcases ih hp with ⟨h1, h2⟩
      exact ⟨List.mem_cons_of_mem _ h1, h2⟩
    · rw [removeKey, if_neg h] at hp
      rcases List.mem_cons.mp hp with h1 | h1
      · exact ⟨h1 ▸ List.mem_cons_self _ _, h1 ▸ h⟩
      · rcases ih h1 with ⟨h2, h3⟩
        exact ⟨List.mem_cons_of_mem _ h2, h3⟩

theorem mem_insertKey (l : List (String × β)) (k : String) (v : β)
    (p : String × β) (hn : keysNodup l) (hp : p ∈ insertKey l k v) :
    p = (k, v) ∨ (p ∈ l ∧ p.1 ≠ k) := by
  induction l with
  | nil =>
    simp only [insertKey, List.mem_singleton] at hp
    exact Or.inl hp
  | cons q rest ih =>
    simp only [keysNodup, List.map_cons, List.nodup_cons] at hn
    by_cases h : q.1 = k
    · rw [insertKey, if_pos h] at hp
      rcases List.mem_cons.mp hp with h1 | h1
      · exact Or.inl h1
      · refine Or.inr ⟨List.mem_cons_of_mem _ h1, ?_⟩
        intro hk
        exact hn.1 (h ▸ hk ▸ List.mem_map_of_mem Prod.fst h1)
    · rw [insertKey, if_neg h] at hp
      rcases List.mem_cons.mp hp with h1 | h1
      · exact Or.inr ⟨h1 ▸ List.mem_cons_self _ _, h1 ▸ h⟩
      · rcases ih hn.2 h1 with h2 | ⟨h2, h3⟩
        · exact Or.inl h2
        · exact Or.inr ⟨List.mem_cons_of_mem _ h2, h3⟩

theorem lookupKey_eq_none_of_mem (l : List (String × β)) (k : String)
    (h : lookupKey l k = none) (p : String × β) (hp : p ∈ l) : p.1 ≠ k := by
  induction l with
  | nil => simp at hp
  | cons q rest ih =>
    by_cases hq : q.1 = k
    · rw [lookupKey, if_pos hq] at h
      exact absurd h (by simp)
    · rw [lookupKey, if_neg hq] at h
      rcases List.mem_cons.mp hp with h1 | h1
      · exact h1 ▸ hq
      · exact ih h h1

end AssocLemmas

theorem monitoringInvariant_iff (s : AppState) :
    monitoringInvariant s = true ↔
      ∀ p ∈ s.registry, p.2.monitoring = (lookupKey s.active p.1).isSome := by
  simp [monitoringInvariant, List.all_eq_true]

theorem ping_worker_nil_of_cancelled (cancelled : Nat → Bool)
    (dur : Nat → Nat) (interval t fuel : Nat) (h : cancelled t = true) :
    ping_worker cancelled dur interval t fuel = [] := by
  cases fuel with
  | zero => rfl
  | succ n => simp [ping_worker, h]

theorem waitInterval_le_max (cancelled : Nat → Bool) (c : Nat)
    (hc : ∀ t, c ≤ t → cancelled t = true) :
    ∀ k t, waitInterval cancelled t k ≤ max t c := by
  intro k
  induction k with
  | zero =>
    intro t
    rw [waitInterval]
    exact le_max_left _ _
  | succ n ih =>
    intro t
    by_cases h : cancelled t = true
    · rw [waitInterval, if_pos h]
      exact le_max_left _ _
    · have ht : t < c := by
        by_contra hge
        push_neg at hge
        exact h (hc t hge)
      rw [waitInterval, if_neg h]
      calc waitInterval cancelled (t + 1) n ≤ max (t + 1) c := ih (t + 1)
        _ = c := max_eq_right (Nat.succ_le_of_lt ht)
        _ ≤ max t c := le_max_right _ _

theorem ping_worker_probes_lt (cancelled : Nat → Bool) (dur : Nat → Nat)
    (interval c : Nat) (hc : ∀ t, c ≤ t → cancelled t = true) :
    ∀ fuel t0 p, p ∈ ping_worker cancelled dur interval t0 fuel → p < c := by
  intro fuel
  induction fuel with
  | zero =>
    intro t0 p hp
    simp [ping_worker] at hp
  | succ n ih =>
    intro t0 p hp
    by_cases h : cancelled t0 = true
    · simp [ping_worker, h] at hp
    · rw [ping_worker, if_neg h] at hp
      rcases List.mem_cons.mp hp with h1 | h1
      · subst h1
        by_contra hge
        push_neg at hge
        exact h (hc p hge)
      · exact ih _ p h1

/-- Claim C2: once a stop for a target has returned (so from slice `c`
on, the worker's cancellation condition reads true), the worker performs
no further probe — every probe start slice precedes `c` — and every
interval wait, for any interval including 1440 minutes, ends within one
0.1-second slice of cancellation (it never runs past slice `c`), so the
stop takes effect at sub-second latency rather than after the interval. -/
theorem C2_stop_halts_probes (cancelled : Nat → Bool) (dur : Nat → Nat)
    (interval fuel t0 c : Nat) (hc : ∀ t, c ≤ t → cancelled t = true) :
    ((ping_worker cancelled dur interval t0 fuel).all
        fun p => decide (p < c)) = true ∧
    ∀ t k, waitInterval cancelled t k ≤ max t c := by
  constructor
  · rw [List.all_eq_true]
    intro p hp
    exact decide_eq_true
      (ping_worker_probes_lt cancelled dur interval c hc fuel t0 p hp)
  · intro t k
    exact waitInterval_le_max cancelled c hc k t

theorem C2_stop_halts_probes_witness :
    ((ping_worker (fun t => decide (5 ≤ t)) (fun _ => 3) 1440 0 20).all
        fun p => decide (p < 5)) = true ∧
    waitInterval (fun t => decide (5 ≤ t)) 2 (1440 * 60 * 10) ≤ max 2 5 := by
  have h := C2_stop_halts_probes (fun t => decide (5 ≤ t)) (fun _ => 3)
    1440 20 0 5 (fun t ht => decide_eq_true ht)
  exact ⟨h.1, h.2 2 (1440 * 60 * 10)⟩

/-- Claim C6: after `delete_url` returns, no schedule entry for the id
remains in `active_monitors` and the target is gone from the registry
(the handler deletes the monitor entry before touching the registry);
and a worker whose cancellation condition reads true performs no probe
at all, so no further probe result is produced for the id. -/
theorem C6_delete_removes_monitor_and_target (s : AppState)
    (url_id : String) :
    lookupKey (delete_url s url_id).1.active url_id = none ∧
    lookupKey (delete_url s url_id).1.registry url_id = none ∧
    ∀ (dur : Nat → Nat) (interval t fuel : Nat),
      ping_worker (fun _ => true) dur interval t fuel = [] := by
  refine ⟨?_, ?_, ?_⟩
  · by_cases h : (lookupKey s.registry url_id).isSome
    · simp [delete_url, h, lookupKey_removeKey_self]
    · simp [delete_url, h, lookupKey_removeKey_self]
  · by_cases h : (lookupKey s.registry url_id).isSome
    · simp [delete_url, h, lookupKey_removeKey_self]
    · simp only [delete_url, h, if_neg, Bool.false_eq_true, if_false]
      exact Option.not_isSome_iff_eq_none.mp (by simpa using h)
  · intro dur interval t fuel
    exact ping_worker_nil_of_cancelled _ dur interval t fuel rfl

/-- Claim C7: `stop_monitoring` is idempotent and never an error —
stopping twice yields the same state as stopping once, the id is absent
from `active_monitors` afterwards, and whenever the target is still in
the registry its `monitoring` flag is false after the call, whatever the
prior state. -/
theorem C7_stop_idempotent (s : AppState) (url_id : String) :
    stop_monitoring (stop_monitoring s url_id) url_id =
      stop_monitoring s url_id ∧
    lookupKey (stop_monitoring s url_id).active url_id = none ∧
    ∀ t, lookupKey (stop_monitoring s url_id).registry url_id = some t →
      t.monitoring = false := by
  cases hreg : lookupKey s.registry url_id with
  | none =>
    refine ⟨?_, ?_, ?_⟩
    · simp [stop_monitoring, hreg, lookupKey_removeKey_self,
        removeKey_removeKey_self]
    · simp [stop_monitoring, lookupKey_removeKey_self]
    · intro t ht
      rw [stop_monitoring] at ht
      simp only [hreg, Option.isSome_none, Bool.false_eq_true, if_false] at ht
      exact absurd ht (by simp)
  | some t0 =>
    have hreg1 : (stop_monitoring s url_id).registry =
        insertKey s.registry url_id { t0 with monitoring := false } := by
      simp [stop_monitoring, hreg, setMonitoring]
    refine ⟨?_, ?_, ?_⟩
    · have hl : lookupKey (stop_monitoring s url_id).registry url_id =
          some { t0 with monitoring := false } := by
        rw [hreg1]
        exact lookupKey_insertKey_self _ _ _
      show stop_monitoring (stop_monitoring s url_id) url_id =
        stop_monitoring s url_id
      rw [stop_monitoring]
      rw [hl]
      simp only [Option.isSome_some, if_true, setMonitoring, hl]
      rw [hreg1]
      rw [insertKey_insertKey_self]
      rw [stop_monitoring]
      simp only [hreg, Option.isSome_some, if_true, setMonitoring, hreg,
        removeKey_removeKey_self]
    · simp [stop_monitoring, lookupKey_removeKey_self]
    · intro t ht
      rw [hreg1] at ht
      rw [lookupKey_insertKey_self] at ht
      cases ht
      rfl

theorem C7_stop_idempotent_witness :
    stop_monitoring
        (stop_monitoring
          ⟨[("a", ⟨"a", "https://a.example", 5, true⟩)],
            [("a", ⟨true, "https://a.example", 5⟩)]⟩ "a") "a" =
      stop_monitoring
        ⟨[("a", ⟨"a", "https://a.example", 5, true⟩)],
          [("a", ⟨true, "https://a.example", 5⟩)]⟩ "a" ∧
    (Target.mk "a" "https://a.example" 5 false).monitoring = false := by
  have h := C7_stop_idempotent
    ⟨[("a", ⟨"a", "https://a.example", 5, true⟩)],
      [("a", ⟨true, "https://a.example", 5⟩)]⟩ "a"
  exact ⟨h.1, h.2.2 ⟨"a", "https://a.example", 5, false⟩ (by decide)⟩

/-- Claim C1: the registry/scheduler consistency invariant — every
registry target has `monitoring = true` exactly when a live entry for
its id exists in `active_monitors` — is preserved by each of the
scheduler operations `start_monitoring`, `stop_monitoring` and
`delete_url`, so it holds immediately after any of them completes. -/
theorem C1_monitoring_invariant_preserved (s : AppState) (url_id : String)
    (hn : keysNodup s.registry) (h : monitoringInvariant s = true) :
    monitoringInvariant (start_monitoring s url_id).1 = true ∧
    monitoringInvariant (stop_monitoring s url_id) = true ∧
    monitoringInvariant (delete_url s url_id).1 = true := by
  rw [monitoringInvariant_iff] at h
  refine ⟨?_, ?_, ?_⟩
  · cases hreg : lookupKey s.registry url_id with
    | none =>
      simp only [start_monitoring, hreg]
      exact (monitoringInvariant_iff s).mpr h
    | some t =>
      cases hact : (lookupKey s.active url_id).isSome with
      | true =>
        simp only [start_monitoring, start_monitoring_thread, hreg, hact,
          if_true, if_false, Bool.false_eq_true]
        exact (monitoringInvariant_iff s).mpr h
      | false =>
        simp only [start_monitoring, start_monitoring_thread, hreg, hact,
          Bool.false_eq_true, if_false, if_true]
        rw [monitoringInvariant_iff]
        intro p hp
        simp only [setMonitoring, hreg] at hp ⊢
        rcases mem_insertKey _ _ _ _ hn hp with h1 | ⟨h1, h2⟩
        · subst h1
          simp [lookupKey_insertKey_self]
        · rw [lookupKey_insertKey_ne _ _ _ _ h2]
          exact h p h1
  · rw [monitoringInvariant_iff]
    intro p hp
    cases hreg : lookupKey s.registry url_id with
    | none =>
      simp only [stop_monitoring, hreg, Option.isSome_none,
        Bool.false_eq_true, if_false] at hp ⊢
      have h2 := lookupKey_eq_none_of_mem _ _ hreg p hp
      rw [lookupKey_removeKey_ne _ _ _ h2]
      exact h p hp
    | some t =>
      simp only [stop_monitoring, hreg, Option.isSome_some, if_true,
        setMonitoring] at hp ⊢
      rcases mem_insertKey _ _ _ _ hn hp with h1 | ⟨h1, h2⟩
      · subst h1
        simp [lookupKey_removeKey_self]
      · rw [lookupKey_removeKey_ne _ _ _ h2]
        exact h p h1
  · rw [monitoringInvariant_iff]
    intro p hp
    cases hreg : lookupKey s.registry url_id with
    | none =>
      simp only [delete_url, hreg, Option.isSome_none,
        Bool.false_eq_true, if_false] at hp ⊢
      have h2 := lookupKey_eq_none_of_mem _ _ hreg p hp
      rw [lookupKey_removeKey_ne _ _ _ h2]
      exact h p hp
    | some t =>
      simp only [delete_url, hreg, Option.isSome_some, if_true] at hp ⊢
      rcases mem_removeKey _ _ _ hp with ⟨h1, h2⟩
      rw [lookupKey_removeKey_ne _ _ _ h2]
      exact h p h1

theorem C1_monitoring_invariant_preserved_witness :
    monitoringInvariant
      (start_monitoring
        ⟨[("a", ⟨"a", "https://a.example", 5, true⟩),
          ("b", ⟨"b", "https://b.example", 3, false⟩)],
          [("a", ⟨true, "https://a.example", 5⟩)]⟩ "b").1 = true ∧
    monitoringInvariant
      (stop_monitoring
        ⟨[("a", ⟨"a", "https://a.example", 5, true⟩),
          ("b", ⟨"b", "https://b.example", 3, false⟩)],
          [("a", ⟨true, "https://a.example", 5⟩)]⟩ "b") = true ∧
    monitoringInvariant
      (delete_url
        ⟨[("a", ⟨"a", "https://a.example", 5, true⟩),
          ("b", ⟨"b", "https://b.example", 3, false⟩)],
          [("a", ⟨true, "https://a.example", 5⟩)]⟩ "b").1 = true :=
  C1_monitoring_invariant_preserved
    ⟨[("a", ⟨"a", "https://a.example", 5, true⟩),
      ("b", ⟨"b", "https://b.example", 3, false⟩)],
      [("a", ⟨true, "https://a.example", 5⟩)]⟩ "b"
    (by decide) (by decide)

/-- Claim C3: `start_monitoring` answers 404 (`notFound`) when the id is
not in the registry, answers `alreadyActive` and leaves the state
unchanged — creating no second entry — when a live entry for the id
exists, and otherwise records exactly one new live entry carrying the
target's current url and interval while setting the target's
`monitoring` flag to true. -/
theorem C3_start_semantics (s : AppState) (url_id : String) :
    (lookupKey s.registry url_id = none →
      start_monitoring s url_id = (s, StartResult.notFound)) ∧
    (∀ t, lookupKey s.registry url_id = some t →
      (lookupKey s.active url_id).isSome = true →
      start_monitoring s url_id = (s, StartResult.alreadyActive)) ∧
    (∀ t, lookupKey s.registry url_id = some t →
      lookupKey s.active url_id = none →
      start_monitoring s url_id =
        ({ registry :=
            insertKey s.registry url_id { t with monitoring := true },
           active :=
            insertKey s.active url_id ⟨true, t.url, t.interval⟩ },
          StartResult.started)) := by
  refine ⟨?_, ?_, ?_⟩
  · intro hreg
    simp [start_monitoring, hreg]
  · intro t hreg hact
    simp [start_monitoring, start_monitoring_thread, hreg, hact]
  · intro t hreg hact
    simp [start_monitoring, start_monitoring_thread, setMonitoring,
      hreg, hact]

theorem C3_start_semantics_witness :
    start_monitoring (⟨[], []⟩ : AppState) "x" =
      (⟨[], []⟩, StartResult.notFound) ∧
    start_monitoring
        ⟨[("a", ⟨"a", "https://a.example", 5, true⟩)],
          [("a", ⟨true, "https://a.example", 5⟩)]⟩ "a" =
      (⟨[("a", ⟨"a", "https://a.example", 5, true⟩)],
        [("a", ⟨true, "https://a.example", 5⟩)]⟩,
        StartResult.alreadyActive) ∧
    start_monitoring
        ⟨[("a", ⟨"a", "https://a.example", 5, false⟩)], []⟩ "a" =
      (⟨insertKey [("a", ⟨"a", "https://a.example", 5, false⟩)] "a"
          ⟨"a", "https://a.example", 5, true⟩,
        insertKey [] "a" ⟨true, "https://a.example", 5⟩⟩,
        StartResult.started) :=
  ⟨(C3_start_semantics ⟨[], []⟩ "x").1 (by decide),
    (C3_start_semantics
      ⟨[("a", ⟨"a", "https://a.example", 5, true⟩)],
        [("a", ⟨true, "https://a.example", 5⟩)]⟩ "a").2.1
      ⟨"a", "https://a.example", 5, true⟩ (by decide) (by decide),
    (C3_start_semantics
      ⟨[("a", ⟨"a", "https://a.example", 5, false⟩)], []⟩ "a").2.2
      ⟨"a", "https://a.example", 5, false⟩ (by decide) (by decide)⟩

theorem findByUrl_isSome_of_mem (reg : List (String × Target))
    (u eid : String) (t : Target) (hmem : (eid, t) ∈ reg)
    (hurl : t.url = u) : (findByUrl reg u).isSome = true := by
  induction reg with
  | nil => simp at hmem
  | cons p rest ih =>
    by_cases hp : p.2.url = u
    · simp [findByUrl, hp]
    · rw [findByUrl, if_neg hp]
      rcases List.mem_cons.mp hmem with h1 | h1
      · subst h1
        exact absurd hurl hp
      · exact ih h1

/-- Claim C4 (amended): in `src/app.py` the stored interval is exactly
the request interval clamped to `[1, 1440]` (or 5 when `int()` rejects
the value), while the `src/API/index.py` variant clamps the interval to
`[1, 60]` instead, sending every request above 60 minutes to 60. -/
theorem C4_interval_clamped (s : AppState) (newId url : String)
    (urlValid : Bool) (interval : Option Int) (rid : String)
    (h : (add_url s newId url urlValid interval).2 = AddResult.added rid) :
    (lookupKey (add_url s newId url urlValid interval).1.registry
        rid).map Target.interval = some (clampIntervalApp interval) ∧
    (1 ≤ clampIntervalApp interval ∧ clampIntervalApp interval ≤ 1440) ∧
    (∀ j, interval = some j → j < 1 → clampIntervalApp interval = 1) ∧
    (∀ j, interval = some j → 1440 < j →
      clampIntervalApp interval = 1440) ∧
    (∀ j, interval = some j → 1 ≤ j → j ≤ 1440 →
      clampIntervalApp interval = j) ∧
    (interval = none → clampIntervalApp interval = 5) ∧
    (∀ j : Int, 1 ≤ API.clampInterval j ∧ API.clampInterval j ≤ 60) ∧
    (∀ j : Int, 60 < j → API.clampInterval j = 60) ∧
    (∀ j : Int, 1 ≤ j → j ≤ 60 → API.clampInterval j = j) ∧
    ∀ (reg : List (String × API.APITarget)) (nid u n : String) (v : Bool)
      (j : Int) (ev : API.ProbeEvent) (now : Nat) (rid2 : String),
      (API.add_url reg nid u n v j ev now).2 = AddResult.added rid2 →
      (lookupKey (API.add_url reg nid u n v j ev now).1 rid2).map
          API.APITarget.interval = some (API.clampInterval j) := by
  refine ⟨?_, ?_, ?_, ?_, ?_, ?_, ?_, ?_, ?_, ?_⟩
  · by_cases hu : url = ""
    · rw [add_url] at h
      simp [hu] at h
    · by_cases hv : urlValid = false
      · rw [add_url] at h
        simp [hu, hv] at h
      · cases hf : findByUrl s.registry url with
        | some eid =>
          rw [add_url] at h
          simp [hu, hv, hf] at h
        | none =>
          rw [add_url] at h
          simp [hu, hv, hf] at h
          subst h
          simp [add_url, hu, hv, hf, lookupKey_insertKey_self]
  · rcases interval with _ | j
    · simp [clampIntervalApp]
    · constructor <;> (simp only [clampIntervalApp]; split_ifs <;> omega)
  · intro j hj hlt
    subst hj
    simp [clampIntervalApp, hlt]
  · intro j hj hgt
    subst hj
    have h1 : ¬ j < 1 := by omega
    simp [clampIntervalApp, h1, hgt]
  · intro j hj h1 h2
    subst hj
    have h3 : ¬ j < 1 := by omega
    have h4 : ¬ j > 1440 := by omega
    simp [clampIntervalApp, h3, h4]
  · intro hj
    subst hj
    rfl
  · intro j
    constructor <;> (simp only [API.clampInterval]; split_ifs <;> omega)
  · intro j hj
    have h1 : ¬ j < 1 := by omega
    simp [API.clampInterval, h1, hj]
  · intro j h1 h2
    have h3 : ¬ j < 1 := by omega
    have h4 : ¬ j > 60 := by omega
    simp [API.clampInterval, h3, h4]
  · intro reg nid u n v j ev now rid2 h2
    by_cases hu : u = ""
    · rw [API.add_url] at h2
      simp [hu] at h2
    · by_cases hv : v = false
      · rw [API.add_url] at h2
        simp [hu, hv] at h2
      · rw [API.add_url] at h2
        simp [hu, hv] at h2
        subst h2
        simp [API.add_url, hu, hv, lookupKey_insertKey_self]

theorem C4_interval_clamped_witness :
    (lookupKey (add_url (⟨[], []⟩ : AppState) "u1" "https://a.example"
        true (some 2000)).1.registry "u1").map Target.interval =
      some (clampIntervalApp (some 2000)) ∧
    clampIntervalApp (some 2000) = 1440 := by
  have h := C4_interval_clamped ⟨[], []⟩ "u1" "https://a.example" true
    (some 2000) "u1" (by decide)
  exact ⟨h.1, h.2.2.2.1 2000 rfl (by decide)⟩

/-- Claim C4 counterexample: registering through `src/API/index.py` with
a requested interval of 100 minutes — well inside the claimed `[1, 1440]`
range — stores 60, because that variant clamps to `[1, 60]`. -/
theorem C4_interval_counterexample :
    (lookupKey (API.add_url [] "u1" "https://a.example" "n" true 100
        (API.ProbeEvent.response 200 50) 0).1 "u1").map
      API.APITarget.interval = some 60 ∧
    ¬ (lookupKey (API.add_url [] "u1" "https://a.example" "n" true 100
        (API.ProbeEvent.response 200 50) 0).1 "u1").map
      API.APITarget.interval = some 100 := by
  exact ⟨by decide, by decide⟩

/-- Claim C5 counterexample: a probe that times out after 10000 ms is
recorded by `check_url_status` with status `down` (not a distinct
timeout outcome), a present `status_code` of 0 (not absent), and a
fabricated `response_time` of 0 instead of the elapsed time. -/
theorem C5_probe_failure_counterexample :
    API.check_url_status
        (API.ProbeEvent.failure "HTTPConnectionPool read timed out" 10000)
        7 =
      { status := "down", status_code := 0, response_time := 0,
        error := some "HTTPConnectionPool read timed out",
        timestamp := 7 } ∧
    ¬ (API.check_url_status
        (API.ProbeEvent.failure "HTTPConnectionPool read timed out" 10000)
        7).response_time = 10000 ∧
    ¬ (API.check_url_status
        (API.ProbeEvent.failure "HTTPConnectionPool read timed out" 10000)
        7).status = "timeout" :=
  ⟨rfl, by decide, by decide⟩

/-- Claim C5 (amended): `check_url_status` classifies a received
response by the 400 boundary — status code below 400 is `up`, at or
above 400 is `down`, both carrying the code and the measured elapsed
time — while every exception, timeouts included, is uniformly recorded
as `down` with `status_code = 0`, `response_time = 0` and the exception
text as detail; latency is measured only when a response arrives.  (The
`ping_worker` of `src/app.py` records no result at all — it only logs.) -/
theorem C5_check_url_status_classification (code elapsed now e2 : Nat)
    (d : String) :
    (code < 400 →
      API.check_url_status (API.ProbeEvent.response code elapsed) now =
        { status := "up", status_code := code, response_time := elapsed,
          error := none, timestamp := now }) ∧
    (400 ≤ code →
      API.check_url_status (API.ProbeEvent.response code elapsed) now =
        { status := "down", status_code := code, response_time := elapsed,
          error := none, timestamp := now }) ∧
    API.check_url_status (API.ProbeEvent.failure d e2) now =
      { status := "down", status_code := 0, response_time := 0,
        error := some d, timestamp := now } := by
  refine ⟨?_, ?_, rfl⟩
  · intro h
    simp [API.check_url_status, h]
  · intro h
    have h2 : ¬ code < 400 := by omega
    simp [API.check_url_status, h2]

theorem C5_check_url_status_classification_witness :
    API.check_url_status (API.ProbeEvent.response 200 45) 9 =
      { status := "up", status_code := 200, response_time := 45,
        error := none, timestamp := 9 } ∧
    API.check_url_status (API.ProbeEvent.response 503 88) 9 =
      { status := "down", status_code := 503, response_time := 88,
        error := none, timestamp := 9 } :=
  ⟨(C5_check_url_status_classification 200 45 9 0 "").1 (by decide),
    (C5_check_url_status_classification 503 88 9 0 "").2.1 (by decide)⟩

/-- Claim C8 counterexample: in `src/API/index.py`, registering a url
that an existing target already stores succeeds (201, a new id) and
leaves the registry with two targets carrying the same url — there is
no duplicate check in that variant. -/
theorem C8_duplicate_url_counterexample :
    (API.add_url
        [("u1", ⟨"u1", "n1", "https://a.example", 5, false,
          ⟨"up", 200, 10, none, 0⟩, 0⟩)]
        "u2" "https://a.example" "n2" true 5
        (API.ProbeEvent.response 200 10) 1).2 = AddResult.added "u2" ∧
    API.countByUrl
      (API.add_url
        [("u1", ⟨"u1", "n1", "https://a.example", 5, false,
          ⟨"up", 200, 10, none, 0⟩, 0⟩)]
        "u2" "https://a.example" "n2" true 5
        (API.ProbeEvent.response 200 10) 1).1 "https://a.example" = 2 :=
  ⟨by decide, by decide⟩

/-- Claim C8 (amended): the `add_url` handler of `src/app.py` rejects a
registration whose url equals the url of any target already in the
registry, answering the duplicate error with the registry unchanged and
no new target created; the `src/API/index.py` variant performs no such
check. -/
theorem C8_duplicate_url_rejected (s : AppState) (newId url : String)
    (interval : Option Int) (eid : String) (t : Target)
    (hmem : (eid, t) ∈ s.registry) (hurl : t.url = url)
    (hu : ¬ url = "") :
    ∃ e, add_url s newId url true interval =
      (s, AddResult.duplicate e) := by
  have hsome := findByUrl_isSome_of_mem s.registry url eid t hmem hurl
  rcases Option.isSome_iff_exists.mp hsome with ⟨e, he⟩
  refine ⟨e, ?_⟩
  rw [add_url]
  simp [hu, he]

theorem C8_duplicate_url_rejected_witness :
    ∃ e, add_url
        ⟨[("u1", ⟨"u1", "https://a.example", 5, false⟩)], []⟩
        "u2" "https://a.example" true (some 5) =
      (⟨[("u1", ⟨"u1", "https://a.example", 5, false⟩)], []⟩,
        AddResult.duplicate e) :=
  C8_duplicate_url_rejected
    ⟨[("u1", ⟨"u1", "https://a.example", 5, false⟩)], []⟩
    "u2" "https://a.example" (some 5) "u1"
    ⟨"u1", "https://a.example", 5, false⟩
    (by decide) (by decide) (by decide)

/-- Claim C9: `load_urls` returns the empty mapping when the file is
missing or when reading/parsing raises; every entry it does return stems
from a stored JSON object and has exactly the four fields `id` (the
key), `url`, `interval` and `monitoring`, with the stated defaults when
a field is missing; stored values that are not objects are dropped. -/
theorem C9_load_urls_normalises :
    (load_urls LoadInput.missing = [] ∧
      load_urls LoadInput.readError = []) ∧
    (∀ (entries : List (String × JValue)) (p : String × RawTarget),
      p ∈ load_urls (LoadInput.parsed (JValue.obj entries)) →
      ∃ fields, (p.1, JValue.obj fields) ∈ entries ∧
        p.2.id = JValue.str p.1 ∧
        p.2.url = jGet fields "url" (JValue.str "") ∧
        p.2.interval = jGet fields "interval" (JValue.num 5) ∧
        p.2.monitoring = jGet fields "monitoring" (JValue.bool false)) ∧
    (∀ (k : String) (v : JValue),
      (∀ fields, v ≠ JValue.obj fields) → cleanEntry k v = none) ∧
    (∀ fields, lookupKey fields "url" = none →
      jGet fields "url" (JValue.str "") = JValue.str "") ∧
    (∀ fields, lookupKey fields "interval" = none →
      jGet fields "interval" (JValue.num 5) = JValue.num 5) ∧
    ∀ fields, lookupKey fields "monitoring" = none →
      jGet fields "monitoring" (JValue.bool false) = JValue.bool false := by
  refine ⟨⟨rfl, rfl⟩, ?_, ?_, ?_, ?_, ?_⟩
  · intro entries p hp
    rw [load_urls] at hp
    rcases List.mem_filterMap.mp hp with ⟨q, hq, hclean⟩
    cases q with
    | mk k v =>
      cases v with
      | obj fields =>
        rw [cleanEntry] at hclean
        cases hclean
        exact ⟨fields, hq, rfl, rfl, rfl, rfl⟩
      | str s2 => simp [cleanEntry] at hclean
      | num n2 => simp [cleanEntry] at hclean
      | bool b2 => simp [cleanEntry] at hclean
      | null => simp [cleanEntry] at hclean
      | arr xs => simp [cleanEntry] at hclean
  · intro k v hv
    cases v with
    | obj fields => exact absurd rfl (hv fields)
    | str s2 => rfl
    | num n2 => rfl
    | bool b2 => rfl
    | null => rfl
    | arr xs => rfl
  · intro fields hnone
    rw [jGet, hnone]
  · intro fields hnone
    rw [jGet, hnone]
  · intro fields hnone
    rw [jGet, hnone]

theorem C9_load_urls_normalises_witness :
    load_urls LoadInput.readError = [] ∧
    jGet [] "url" (JValue.str "") = JValue.str "" ∧
    jGet [] "interval" (JValue.num 5) = JValue.num 5 ∧
    jGet [] "monitoring" (JValue.bool false) = JValue.bool false ∧
    cleanEntry "a" (JValue.num 3) = none :=
  ⟨C9_load_urls_normalises.1.2,
    C9_load_urls_normalises.2.2.2.1 [] rfl,
    C9_load_urls_normalises.2.2.2.2.1 [] rfl,
    C9_load_urls_normalises.2.2.2.2.2 [] rfl,
    C9_load_urls_normalises.2.2.1 "a" (JValue.num 3) (fun _ h =>
      JValue.noConfusion h)⟩

/-- Claim C10: a successful registration stores the new target with
`monitoring = false` and leaves `active_monitors` untouched, in both
variants — registration never launches a schedule entry; monitoring
starts only through the separate start operation. -/
theorem C10_registration_starts_nothing (s : AppState)
    (newId url : String) (urlValid : Bool) (interval : Option Int)
    (rid : String)
    (h : (add_url s newId url urlValid interval).2 = AddResult.added rid) :
    (add_url s newId url urlValid interval).1.active = s.active ∧
    (lookupKey (add_url s newId url urlValid interval).1.registry
        rid).map Target.monitoring = some false ∧
    ∀ (reg : List (String × API.APITarget)) (nid u n : String) (v : Bool)
      (j : Int) (ev : API.ProbeEvent) (now : Nat) (rid2 : String),
      (API.add_url reg nid u n v j ev now).2 = AddResult.added rid2 →
      (lookupKey (API.add_url reg nid u n v j ev now).1 rid2).map
          API.APITarget.monitoring = some false := by
  refine ⟨?_, ?_, ?_⟩
  · by_cases hu : url = ""
    · simp [add_url, hu]
    · by_cases hv : urlValid = false
      · simp [add_url, hu, hv]
      · cases hf : findByUrl s.registry url with
        | some eid => simp [add_url, hu, hv, hf]
        | none => simp [add_url, hu, hv, hf]
  · by_cases hu : url = ""
    · rw [add_url] at h
      simp [hu] at h
    · by_cases hv : urlValid = false
      · rw [add_url] at h
        simp [hu, hv] at h
      · cases hf : findByUrl s.registry url with
        | some eid =>
          rw [add_url] at h
          simp [hu, hv, hf] at h
        | none =>
          rw [add_url] at h
          simp [hu, hv, hf] at h
          subst h
          simp [add_url, hu, hv, hf, lookupKey_insertKey_self]
  · intro reg nid u n v j ev now rid2 h2
    by_cases hu : u = ""
    · rw [API.add_url] at h2
      simp [hu] at h2
    · by_cases hv : v = false
      · rw [API.add_url] at h2
        simp [hu, hv] at h2
      · rw [API.add_url] at h2
        simp [hu, hv] at h2
        subst h2
        simp [API.add_url, hu, hv, lookupKey_insertKey_self]

theorem C10_registration_starts_nothing_witness :
    (add_url
        ⟨[], [("z", ⟨true, "https://z.example", 9⟩)]⟩
        "u1" "https://a.example" true (some 5)).1.active =
      [("z", ⟨true, "https://z.example", 9⟩)] ∧
    (lookupKey (add_url
        ⟨[], [("z", ⟨true, "https://z.example", 9⟩)]⟩
        "u1" "https://a.example" true (some 5)).1.registry "u1").map
      Target.monitoring = some false := by
  have h := C10_registration_starts_nothing
    ⟨[], [("z", ⟨true, "https://z.example", 9⟩)]⟩
    "u1" "https://a.example" true (some 5) "u1" (by decide)
  exact ⟨h.1, h.2.1⟩
